/-
Verification of the mjpeg-server UDP frame assembler.

This file gives a shallow embedding of the Go package `udpserver`
(the later variant, the one with the timeout monitor and the
placeholder generator) together with the shutdown wiring of `main`,
and proves / refutes the specification's claims about it.

Bytes are modelled as natural numbers; every comparison performed by
the code is an equality test against a constant (0xFF = 255,
0xD8 = 216, 0xD9 = 217), which is unaffected by the change of carrier
from `uint8` to `ℕ`.  Slice indexing that Go would reject at runtime
with an index-out-of-range panic is modelled by `Option`: `none` is
the panic.
-/
import Mathlib

namespace MjpegServer

/-- The mutable assembler state of `UDPServer`: the frame currently
being accumulated (`s.frameBuffer`) and the last completely received
frame (`s.lastFrame`). Both start empty. -/
structure ServerState where
  frameBuffer : List ℕ
  lastFrame : List ℕ
deriving Repr, DecidableEq

/-- The initial assembler state: both buffers empty. -/
def initialState : ServerState := ⟨[], []⟩

/-- Models line 180 of the ingest loop:
`hasJpegHeader := newFameBuffer[0] == 0xFF && newFameBuffer[1] == 0xD8`.
Go's `&&` short-circuits, so index 1 is touched only when byte 0 is
0xFF; an out-of-range access is a panic, i.e. `none`.  (Index 0 is in
range because the caller has already ruled out the empty buffer.) -/
def jpegHeaderCheck : List ℕ → Option Bool
  | [] => none
  | [b0] => if b0 = 255 then none else some false
  | b0 :: b1 :: _ => if b0 = 255 then some (b1 == 216) else some false

/-- The pure footer test on a buffer of length ≥ 2: the last two bytes
are 0xFF 0xD9. -/
def footerBytes (nb : List ℕ) : Bool :=
  nb.getD (nb.length - 2) 0 == 255 && nb.getD (nb.length - 1) 0 == 217

/-- Models line 181 of the ingest loop:
`hasJpegFooter := newFameBuffer[len-2] == 0xFF && newFameBuffer[len-1] == 0xD9`.
When the buffer has length 1, `len-2` is the Go int `-1`, an
out-of-range access, i.e. a panic (`none`). -/
def jpegFooterCheck (nb : List ℕ) : Option Bool :=
  if nb.length < 2 then none else some (footerBytes nb)

/-- One iteration of the ingest loop on a successfully read datagram
payload `frag` (lines 171–212 of the source): append the fragment to
the frame buffer; skip if the result is empty; evaluate the header
check, then the footer check (each may panic); on a missing header
drop the datagram leaving the state untouched; otherwise store the new
buffer, and if it is a complete frame copy it to `lastFrame` and reset
the frame buffer. -/
def ingestStep (s : ServerState) (frag : List ℕ) : Option ServerState :=
  if (s.frameBuffer ++ frag).length = 0 then some s
  else
    match jpegHeaderCheck (s.frameBuffer ++ frag),
          jpegFooterCheck (s.frameBuffer ++ frag) with
    | none, _ => none
    | some _, none => none
    | some hasHeader, some hasFooter =>
      if hasHeader then
        if hasFooter then some ⟨[], s.frameBuffer ++ frag⟩
        else some ⟨s.frameBuffer ++ frag, s.lastFrame⟩
      else some s

/-- Ingest a list of datagram payloads in order, propagating a panic. -/
def ingestChunks (s : ServerState) : List (List ℕ) → Option ServerState
  | [] => some s
  | c :: cs =>
    match ingestStep s c with
    | none => none
    | some s1 => ingestChunks s1 cs

/-- The two failure shapes of `conn.ReadFrom` distinguished by the
type switch at lines 130–142: `timeout` is the `*net.OpError` branch
(the read-deadline expiry the code and the spec are concerned with),
`other` is every other error. -/
inductive ReadError
  | timeout
  | other
deriving Repr, DecidableEq

/-- Models the error branch of the ingest loop (lines 130–145): on the
timeout branch, if either buffer is non-empty both are cleared;
otherwise nothing changes.  Any other error only logs. -/
def readErrorStep (s : ServerState) : ReadError → ServerState
  | .timeout =>
    if 0 < s.frameBuffer.length ∨ 0 < s.lastFrame.length then ⟨[], []⟩ else s
  | .other => s

/-- The persisted process-wide frame-dimension globals
`lastFrameWidth` / `lastFrameHeight`. -/
structure DimState where
  width : Int
  height : Int
deriving Repr, DecidableEq

/-- `defaultFrameWidth` from the source. -/
def defaultFrameWidth : Int := 640

/-- `defaultFrameHeight` from the source. -/
def defaultFrameHeight : Int := 480

/-- The dimension globals as `Start` initialises them. -/
def startDims : DimState := ⟨defaultFrameWidth, defaultFrameHeight⟩

/-- Models `GetFrameSize`: defaults when no last frame exists, else
decode the frame header; defaults again when decoding fails.  The
JPEG header decoder (`image.DecodeConfig`, library code outside this
repository) is passed in abstractly as `decode`. -/
def getFrameSize (decode : List ℕ → Option (Int × Int))
    (lastFrame : List ℕ) : Int × Int :=
  if lastFrame.length = 0 then (defaultFrameWidth, defaultFrameHeight)
  else
    match decode lastFrame with
    | none => (defaultFrameWidth, defaultFrameHeight)
    | some wh => wh

/-- `angleOffsetIncrement` from the source.  Every reachable value of
the angle global is a multiple of 1/2 in [0, 360), all exactly
representable in the source's float64, so ℚ is a faithful carrier. -/
def angleOffsetIncrement : ℚ := 1/2

/-- Models lines 326–331 of `GetDefaultFrame`: advance the rotation
angle by the increment unless that would reach 360, in which case wrap
to 0. -/
def advanceAngle (a : ℚ) : ℚ :=
  if a + angleOffsetIncrement < 360 then a + angleOffsetIncrement else 0

/-- The arguments `GetDefaultFrame` feeds to its renderer: the
persisted global dimensions and the rotation angle in force during the
pixel loop.  The rendering itself (per-pixel trigonometry and
`jpeg.Encode`, library code) is kept abstract; which dimensions and
angle reach it is exactly what the claims are about. -/
structure PlaceholderCall where
  usedWidth : Int
  usedHeight : Int
  usedAngle : ℚ
deriving Repr, DecidableEq

/-- Models `GetDefaultFrame`: read the persisted dimension globals and
the current angle, render with them, then advance the angle. -/
def getDefaultFrame (d : DimState) (a : ℚ) : PlaceholderCall × ℚ :=
  (⟨d.width, d.height, a⟩, advanceAngle a)

/-- What `GetFrame` hands back: either the bytes of the last complete
frame, or a placeholder render described by its call arguments. -/
inductive FrameResult
  | frame (bytes : List ℕ)
  | placeholder (call : PlaceholderCall)
deriving Repr, DecidableEq

/-- Models `GetFrame` (lines 235–269): if no last frame exists,
delegate to `GetDefaultFrame` (which advances the angle but leaves the
dimension globals alone); otherwise store `GetFrameSize`'s answer into
the dimension globals and return the last frame. -/
def getFrame (decode : List ℕ → Option (Int × Int)) (s : ServerState)
    (d : DimState) (a : ℚ) : FrameResult × DimState × ℚ :=
  if s.lastFrame.length = 0 then
    ((FrameResult.placeholder (getDefaultFrame d a).1), d, (getDefaultFrame d a).2)
  else
    (FrameResult.frame s.lastFrame,
      ⟨(getFrameSize decode s.lastFrame).1, (getFrameSize decode s.lastFrame).2⟩,
      a)

/-- The cancellation state of the server's context.
`NewUDPServerWithPort` stores `context.Background()`, which is never
cancelled and carries no cancel function, so the flag starts false. -/
structure ServerCtl where
  ctxCanceled : Bool
deriving Repr, DecidableEq

/-- A freshly constructed server: its `context.Background()` is not
cancelled. -/
def newUDPServer : ServerCtl := ⟨false⟩

/-- Models `Stop` (lines 229–232): the body is `s.ctx.Done()`, which
only RETURNS the context's done channel (and discards it) — it cancels
nothing, so the control state is unchanged. -/
def stopServer (c : ServerCtl) : ServerCtl := c

/-- Models the `select` at the top of each `Start`-loop iteration: the
shutdown branch is taken exactly when the context's done channel is
closed, i.e. when the context has been cancelled. -/
def loopObservesShutdown (c : ServerCtl) : Bool := c.ctxCanceled

/-- The header invariant on the assembler state: a non-empty pending
buffer begins with the start-of-image marker 0xFF 0xD8. -/
def headerInv (s : ServerState) : Prop :=
  s.frameBuffer = [] ∨ s.frameBuffer.take 2 = [255, 216]

/-! ### Helper lemmas about the marker checks and a single ingest step -/

theorem eq_cons_of_take_two (l : List ℕ) (h : l.take 2 = [255, 216]) :
    ∃ r, l = 255 :: 216 :: r := by
  cases l with
  | nil => simp at h
  | cons b0 t =>
    cases t with
    | nil => simp at h
    | cons b1 t2 =>
      simp [List.take] at h
      exact ⟨t2, by simp [h.1, h.2]⟩

theorem jpegHeaderCheck_true (nb : List ℕ)
    (h : jpegHeaderCheck nb = some true) : nb.take 2 = [255, 216] := by
  match nb with
  | [] => simp [jpegHeaderCheck] at h
  | [b0] =>
    rw [jpegHeaderCheck] at h
    split at h <;> simp_all
  | b0 :: b1 :: t2 =>
    rw [jpegHeaderCheck] at h
    split at h <;> simp_all

/-- When the accumulated buffer carries the start marker, a step stores
it, completing the frame exactly when the footer is present. -/
theorem ingestStep_header (s : ServerState) (frag r : List ℕ)
    (hnb : s.frameBuffer ++ frag = 255 :: 216 :: r) :
    ingestStep s frag =
      if footerBytes (s.frameBuffer ++ frag) then
        some ⟨[], s.frameBuffer ++ frag⟩
      else some ⟨s.frameBuffer ++ frag, s.lastFrame⟩ := by
  have hlen0 : ¬ (s.frameBuffer ++ frag).length = 0 := by rw [hnb]; simp
  have hhd : jpegHeaderCheck (s.frameBuffer ++ frag) = some true := by
    rw [hnb, jpegHeaderCheck]; simp
  have hft : jpegFooterCheck (s.frameBuffer ++ frag) =
      some (footerBytes (s.frameBuffer ++ frag)) := by
    unfold jpegFooterCheck
    rw [if_neg (by rw [hnb]; simp)]
  unfold ingestStep
  rw [if_neg hlen0, hhd, hft]
  rfl

/-- When the accumulated buffer has at least two bytes but lacks the
start marker, a step leaves the state untouched. -/
theorem ingestStep_no_header (s : ServerState) (frag : List ℕ)
    (hlen : 2 ≤ (s.frameBuffer ++ frag).length)
    (hnh : (s.frameBuffer ++ frag).take 2 ≠ [255, 216]) :
    ingestStep s frag = some s := by
  rcases hl : s.frameBuffer ++ frag with _ | ⟨b0, t⟩
  · rw [hl] at hlen; simp at hlen
  rcases t with _ | ⟨b1, t2⟩
  · rw [hl] at hlen; simp at hlen
  rw [hl] at hnh
  have hhd : jpegHeaderCheck (b0 :: b1 :: t2) = some false := by
    by_cases hb0 : b0 = 255
    · have hb1 : ¬ b1 = 216 := by
        intro hb1
        exact hnh (by simp [hb0, hb1])
      simp [jpegHeaderCheck, hb0, hb1]
    · simp [jpegHeaderCheck, hb0]
  have hft : jpegFooterCheck (b0 :: b1 :: t2) =
      some (footerBytes (b0 :: b1 :: t2)) := by
    unfold jpegFooterCheck
    rw [if_neg (by simp)]
  unfold ingestStep
  rw [hl, if_neg (by simp), hhd, hft]
  rfl

/-- Exhaustive description of the successful outcomes of one step. -/
theorem ingestStep_cases (s s2 : ServerState) (frag : List ℕ)
    (h : ingestStep s frag = some s2) :
    s2 = s ∨ s2 = ⟨[], s.frameBuffer ++ frag⟩ ∨
      (s2 = ⟨s.frameBuffer ++ frag, s.lastFrame⟩ ∧
        jpegHeaderCheck (s.frameBuffer ++ frag) = some true) := by
  unfold ingestStep at h
  split at h
  · exact Or.inl (Option.some.inj h).symm
  · split at h
    · exact absurd h (by simp)
    · exact absurd h (by simp)
    · next hH hF heq1 heq2 =>
      split at h
      · next hh =>
        split at h
        · exact Or.inr (Or.inl (Option.some.inj h).symm)
        · refine Or.inr (Or.inr ⟨(Option.some.inj h).symm, ?_⟩)
          rw [heq1, hh]
      · exact Or.inl (Option.some.inj h).symm

/-- Running the ingest loop over a chunk list from a pending buffer
that already carries the start marker: as long as no intermediate
accumulation shows the footer, chunks keep accumulating, and the final
footer completes the frame. -/
theorem ingestChunks_header_run (cs : List (List ℕ)) :
    ∀ (p r lf : List ℕ), cs ≠ [] → p = 255 :: 216 :: r →
    (∀ i, i + 1 < cs.length →
      footerBytes (p ++ ((cs.take (i + 1)).flatten)) = false) →
    footerBytes (p ++ cs.flatten) = true →
    ingestChunks ⟨p, lf⟩ cs = some ⟨[], p ++ cs.flatten⟩ := by
  induction cs with
  | nil => intro p r lf hne _ _ _; exact absurd rfl hne
  | cons c cs ih =>
    intro p r lf _ hp hmid hlast
    have hnb : (⟨p, lf⟩ : ServerState).frameBuffer ++ c = 255 :: 216 :: (r ++ c) := by
      simp [hp]
    by_cases hcs : cs = []
    · subst hcs
      have hft : footerBytes (p ++ c) = true := by
        simpa using hlast
      simp [ingestChunks, ingestStep_header _ _ _ hnb, hft]
    · have hft : footerBytes (p ++ c) = false := by
        have h0 := hmid 0 (by simpa using List.length_pos.mpr hcs)
        simpa using h0
      have hstep : ingestStep ⟨p, lf⟩ c = some ⟨p ++ c, lf⟩ := by
        rw [ingestStep_header _ _ _ hnb]
        simp [hft]
      have hmid2 : ∀ i, i + 1 < cs.length →
          footerBytes ((p ++ c) ++ ((cs.take (i + 1)).flatten)) = false := by
        intro i hi
        have := hmid (i + 1) (by simpa using Nat.succ_lt_succ hi)
        simpa [List.append_assoc] using this
      have hlast2 : footerBytes ((p ++ c) ++ cs.flatten) = true := by
        simpa [List.append_assoc] using hlast
      have := ih (p ++ c) (r ++ c) lf hcs (by simp [hp]) hmid2 hlast2
      simp [ingestChunks, hstep, this, List.append_assoc]

/-! ### The claims -/

/-- C7: ingest is not total — a length-1 fragment arriving on an empty
pending buffer makes the marker checks index the 1-byte accumulated
buffer out of bounds (position 1 when byte 0 is 0xFF, position
`len-2 = -1` otherwise), so the step can only end in the out-of-range
panic. -/
theorem single_byte_fragment_panics (lf : List ℕ) (b : ℕ) :
    ingestStep ⟨[], lf⟩ [b] = none := by
  unfold ingestStep
  rw [if_neg (by simp)]
  by_cases hb : b = 255
  · simp [jpegHeaderCheck, hb]
  · simp [jpegHeaderCheck, jpegFooterCheck, hb]

/-- C2: whenever the accumulated buffer after append begins with
0xFF 0xD8 and ends with 0xFF 0xD9, the step replaces the last complete
frame by a copy of the whole accumulated buffer and resets the pending
buffer to empty. -/
theorem complete_frame_updates (s : ServerState) (frag : List ℕ)
    (hh : (s.frameBuffer ++ frag).take 2 = [255, 216])
    (hf : footerBytes (s.frameBuffer ++ frag) = true) :
    ingestStep s frag = some ⟨[], s.frameBuffer ++ frag⟩ := by
  obtain ⟨r, hr⟩ := eq_cons_of_take_two _ hh
  rw [ingestStep_header s frag r hr, if_pos hf]

theorem complete_frame_updates_witness :
    ingestStep initialState [255, 216, 255, 217] =
      some ⟨[], [255, 216, 255, 217]⟩ :=
  complete_frame_updates initialState [255, 216, 255, 217]
    (by decide) (by decide)

/-- C3 counterexample: a 1-byte first fragment whose accumulated buffer
does not begin with 0xFF 0xD8 is not discarded with the state left
empty — the step panics on the footer bounds check instead. -/
theorem no_header_discard_counterexample :
    ((initialState.frameBuffer ++ [0]).take 2 ≠ [255, 216]) ∧
    ingestStep initialState [0] = none ∧
    ingestStep initialState [0] ≠ some initialState := by
  refine ⟨by decide, by decide, by decide⟩

/-- C3 (amended): for every ingest call where the accumulated buffer
after append has length at least 2 and does not begin with 0xFF 0xD8,
the pending state (necessarily already empty, by the header invariant)
stays empty and the last complete frame is unchanged: the whole state
is untouched.  (On a 1-byte accumulated buffer the footer bounds check
panics instead of discarding.) -/
theorem no_header_discards (s : ServerState) (frag : List ℕ)
    (hinv : headerInv s)
    (hlen : 2 ≤ (s.frameBuffer ++ frag).length)
    (hnh : (s.frameBuffer ++ frag).take 2 ≠ [255, 216]) :
    s.frameBuffer = [] ∧ ingestStep s frag = some s := by
  have hfb : s.frameBuffer = [] := by
    rcases hinv with hfb | hfb
    · exact hfb
    · obtain ⟨r, hr⟩ := eq_cons_of_take_two _ hfb
      exact absurd (by simp [hr]) hnh
  exact ⟨hfb, ingestStep_no_header s frag hlen hnh⟩

theorem no_header_discards_witness :
    initialState.frameBuffer = [] ∧
    ingestStep initialState [0, 1] = some initialState :=
  no_header_discards initialState [0, 1] (Or.inl rfl) (by decide) (by decide)

/-- C4: the header invariant — a non-empty pending buffer begins with
0xFF 0xD8 — is preserved by every successful ingest step (including the
completion reset it contains) and by every read-error step (including
the timeout reset). -/
theorem header_invariant_preserved (s s2 : ServerState) (frag : List ℕ)
    (e : ReadError) (hinv : headerInv s) :
    (ingestStep s frag = some s2 → headerInv s2) ∧
    headerInv (readErrorStep s e) := by
  constructor
  · intro hstep
    rcases ingestStep_cases s s2 frag hstep with h | h | ⟨h, hhd⟩
    · rw [h]; exact hinv
    · rw [h]; exact Or.inl rfl
    · rw [h]; exact Or.inr (jpegHeaderCheck_true _ hhd)
  · cases e with
    | timeout =>
      by_cases hc : 0 < s.frameBuffer.length ∨ 0 < s.lastFrame.length
      · have hr : readErrorStep s .timeout = ⟨[], []⟩ := by
          simp [readErrorStep, hc]
        rw [hr]; exact Or.inl rfl
      · have hr : readErrorStep s .timeout = s := by
          simp [readErrorStep, hc]
        rw [hr]; exact hinv
    | other => exact hinv

theorem header_invariant_preserved_witness :
    headerInv (⟨[255, 216, 0], []⟩ : ServerState) ∧
    headerInv (readErrorStep initialState .timeout) :=
  ⟨(header_invariant_preserved initialState ⟨[255, 216, 0], []⟩ [255, 216, 0]
      .timeout (Or.inl rfl)).1 (by decide),
   (header_invariant_preserved initialState ⟨[255, 216, 0], []⟩ [255, 216, 0]
      .timeout (Or.inl rfl)).2⟩

/-- C5: on a read timeout with a non-empty pending buffer or last
frame, both are cleared to empty; on any other read error the state is
not mutated at all. -/
theorem read_error_handling (s : ServerState) :
    (s.frameBuffer ≠ [] ∨ s.lastFrame ≠ [] →
      readErrorStep s .timeout = ⟨[], []⟩) ∧
    readErrorStep s .other = s := by
  refine ⟨fun h => ?_, rfl⟩
  unfold readErrorStep
  rw [if_pos]
  rcases h with h | h
  · exact Or.inl (List.length_pos.mpr h)
  · exact Or.inr (List.length_pos.mpr h)

theorem read_error_handling_witness :
    readErrorStep ⟨[5], []⟩ .timeout = ⟨[], []⟩ ∧
    readErrorStep ⟨[5], []⟩ .other = ⟨[5], []⟩ :=
  ⟨(read_error_handling ⟨[5], []⟩).1 (Or.inl (by decide)),
   (read_error_handling ⟨[5], []⟩).2⟩

/-- C1 counterexample: the frame
`F = FF D8 FF D9 00 00 FF D9` (it begins with 0xFF 0xD8 and ends with
0xFF 0xD9) split into the non-empty chunks
`[FF D8 FF D9]`, `[00 00 FF D9]`: the first chunk already ends in the
footer, so it is taken as a complete frame, the second chunk is then
discarded for lacking a header, and `currentFrame()` returns
`FF D8 FF D9`, not `F`. -/
theorem chunked_reassembly_counterexample :
    (([[255, 216, 255, 217], [0, 0, 255, 217]] : List (List ℕ)).flatten =
      [255, 216, 255, 217, 0, 0, 255, 217]) ∧
    (∀ c ∈ ([[255, 216, 255, 217], [0, 0, 255, 217]] : List (List ℕ)), c ≠ []) ∧
    ([255, 216, 255, 217, 0, 0, 255, 217] : List ℕ).take 2 = [255, 216] ∧
    footerBytes [255, 216, 255, 217, 0, 0, 255, 217] = true ∧
    (ingestChunks initialState [[255, 216, 255, 217], [0, 0, 255, 217]]).map
        (fun s1 => (getFrame (fun _ => none) s1 startDims 0).1) =
      some (FrameResult.frame [255, 216, 255, 217]) ∧
    FrameResult.frame ([255, 216, 255, 217] : List ℕ) ≠
      FrameResult.frame [255, 216, 255, 217, 0, 0, 255, 217] := by
  refine ⟨by decide, by decide, by decide, by decide, ?_, by decide⟩
  rfl

/-- C1 (amended): for a byte sequence `F` beginning with 0xFF 0xD8 and
ending with 0xFF 0xD9, split into non-empty contiguous chunks,
ingesting the chunks in order from the empty state and then calling
`currentFrame()` returns exactly `F`, provided the first chunk has at
least two bytes (a 1-byte first chunk panics on the marker bounds
checks) and no intermediate accumulation — the concatenation of a
proper non-empty prefix of the chunk list — already ends with
0xFF 0xD9 (such an accumulation is taken as a complete frame early and
the remainder is discarded). -/
theorem chunked_reassembly (F : List ℕ) (cs : List (List ℕ))
    (decode : List ℕ → Option (Int × Int)) (d : DimState) (a : ℚ)
    (hne : cs ≠ []) (hnonempty : ∀ c ∈ cs, c ≠ [])
    (hjoin : cs.flatten = F)
    (r : List ℕ) (hhdr : F = 255 :: 216 :: r)
    (hftr : footerBytes F = true)
    (hfirst : 2 ≤ (cs.headD []).length)
    (hmid : ∀ i, i + 1 < cs.length →
      footerBytes ((cs.take (i + 1)).flatten) = false) :
    ingestChunks initialState cs = some ⟨[], F⟩ ∧
    (getFrame decode ⟨[], F⟩ d a).1 = FrameResult.frame F := by
  have hget : (getFrame decode ⟨[], F⟩ d a).1 = FrameResult.frame F := by
    unfold getFrame
    rw [if_neg (by simp [hhdr])]
  refine ⟨?_, hget⟩
  rcases cs with _ | ⟨c, cs⟩
  · exact absurd rfl hne
  have hflat : c ++ cs.flatten = F := by simpa using hjoin
  have hc2 : 2 ≤ c.length := by simpa using hfirst
  have hctake : c.take 2 = [255, 216] := by
    have : (c ++ cs.flatten).take 2 = c.take 2 :=
      List.take_append_of_le_length hc2
    rw [hflat, hhdr] at this
    simpa [List.take] using this.symm
  obtain ⟨t, ht⟩ := eq_cons_of_take_two c hctake
  have hnb : (initialState.frameBuffer ++ c) = 255 :: 216 :: t := by
    simpa [initialState] using ht
  rcases hcs : cs with _ | ⟨c2, cs2⟩
  · -- a single chunk: it is the whole of F and completes at once
    subst hcs
    have hFc : F = c := by simpa using hflat.symm
    have hft : footerBytes (initialState.frameBuffer ++ c) = true := by
      simpa [initialState, hFc] using hftr
    have hstep : ingestStep initialState c = some ⟨[], c⟩ := by
      rw [ingestStep_header _ _ _ hnb, if_pos hft]
      simp [initialState]
    simp [ingestChunks, hstep, hFc]
  · -- at least two chunks: the first accumulates, the rest complete
    subst hcs
    have hft : footerBytes (initialState.frameBuffer ++ c) = false := by
      have h0 := hmid 0 (by simp)
      simpa [initialState] using h0
    have hstep : ingestStep initialState c = some ⟨c, []⟩ := by
      rw [ingestStep_header _ _ _ hnb, if_neg (by simp [hft])]
      simp [initialState]
    have hrun := ingestChunks_header_run (c2 :: cs2) c t []
      (by simp) ht ?_ ?_
    · rw [show ingestChunks initialState (c :: c2 :: cs2) =
          ingestChunks ⟨c, []⟩ (c2 :: cs2) by simp [ingestChunks, hstep]]
      rw [hrun]
      have h2 : c ++ (c2 ++ cs2.flatten) = F := by simpa using hflat
      simp [h2]
    · intro i hi
      have := hmid (i + 1) (by simpa using Nat.succ_lt_succ hi)
      simpa [List.append_assoc] using this
    · rw [hflat]; exact hftr

theorem chunked_reassembly_witness :
    ingestChunks initialState [[255, 216], [255, 217]] =
      some ⟨[], [255, 216, 255, 217]⟩ ∧
    (getFrame (fun _ => none) ⟨[], [255, 216, 255, 217]⟩ startDims 0).1 =
      FrameResult.frame [255, 216, 255, 217] :=
  chunked_reassembly [255, 216, 255, 217] [[255, 216], [255, 217]]
    (fun _ => none) startDims 0 (by decide) (by decide) (by decide)
    [255, 217] (by decide) (by decide) (by decide)
    (fun i hi => by
      have hi2 : i + 1 < 2 := by simpa using hi
      have hi0 : i = 0 := by omega
      subst hi0
      decide)

/-- C9: starting from an angle in [0, 360), one placeholder generation
advances the rotation angle by exactly 0.5 degrees when the advanced
value stays below 360, and wraps it to exactly 0 otherwise; the result
is again inside [0, 360). -/
theorem angle_advance (a : ℚ) (h0 : 0 ≤ a) (h1 : a < 360) :
    (a + angleOffsetIncrement < 360 →
      advanceAngle a = a + angleOffsetIncrement) ∧
    (360 ≤ a + angleOffsetIncrement → advanceAngle a = 0) ∧
    0 ≤ advanceAngle a ∧ advanceAngle a < 360 := by
  unfold advanceAngle
  by_cases h : a + angleOffsetIncrement < 360
  · rw [if_pos h]
    refine ⟨fun _ => rfl, fun hc => absurd h (not_lt.mpr hc), ?_, h⟩
    have hinc : (0 : ℚ) ≤ angleOffsetIncrement := by
      norm_num [angleOffsetIncrement]
    linarith
  · rw [if_neg h]
    exact ⟨fun hc => absurd hc h, fun _ => rfl, le_refl 0, by norm_num⟩

theorem angle_advance_witness :
    advanceAngle 0 = 0 + angleOffsetIncrement ∧
    advanceAngle (719 / 2) = 0 :=
  ⟨(angle_advance 0 (by norm_num) (by norm_num)).1
      (by norm_num [angleOffsetIncrement]),
   (angle_advance (719 / 2) (by norm_num) (by norm_num)).2.1
      (by norm_num [angleOffsetIncrement])⟩

/-- C8 counterexample: after a frame whose header decodes to 320×240
has been served, a timeout clears the last frame; the next
`currentFrame()` call generates a placeholder with the persisted
320×240 dimensions, not the 640×480 defaults, even though no complete
frame exists. -/
theorem placeholder_dims_counterexample :
    ingestStep initialState [255, 216, 0, 255, 217] =
      some ⟨[], [255, 216, 0, 255, 217]⟩ ∧
    (getFrame (fun _ => some (320, 240)) ⟨[], [255, 216, 0, 255, 217]⟩
        startDims 0).2.1 = ⟨320, 240⟩ ∧
    readErrorStep ⟨[], [255, 216, 0, 255, 217]⟩ .timeout = ⟨[], []⟩ ∧
    (getFrame (fun _ => some (320, 240)) ⟨[], []⟩ ⟨320, 240⟩ 0).1 =
      FrameResult.placeholder ⟨320, 240, 0⟩ ∧
    ((320 : Int), (240 : Int)) ≠ (defaultFrameWidth, defaultFrameHeight) := by
  refine ⟨by decide, rfl, ?_, rfl, by decide⟩
  simp [readErrorStep]

/-- C8 (amended): `GetFrameSize` recomputes on demand and returns the
defaults 640×480 when no frame exists or decoding fails; placeholder
generation however uses the persisted global dimensions (which equal
the defaults right after `Start`, but keep the last decoded frame size
after a timeout clears the frame). -/
theorem placeholder_dims (decode : List ℕ → Option (Int × Int))
    (s : ServerState) (d : DimState) (a : ℚ) :
    (s.lastFrame = [] →
      getFrameSize decode s.lastFrame = (defaultFrameWidth, defaultFrameHeight) ∧
      (getFrame decode s d a).1 =
        FrameResult.placeholder ⟨d.width, d.height, a⟩) ∧
    (decode s.lastFrame = none →
      getFrameSize decode s.lastFrame = (defaultFrameWidth, defaultFrameHeight)) := by
  constructor
  · intro h
    constructor
    · simp [getFrameSize, h]
    · unfold getFrame
      rw [if_pos (by simp [h])]
      rfl
  · intro h
    unfold getFrameSize
    by_cases hl : s.lastFrame.length = 0
    · rw [if_pos hl]
    · rw [if_neg hl, h]

theorem placeholder_dims_witness :
    getFrameSize (fun _ => none) initialState.lastFrame =
      (defaultFrameWidth, defaultFrameHeight) ∧
    (getFrame (fun _ => none) initialState ⟨100, 200⟩ 0).1 =
      FrameResult.placeholder ⟨100, 200, 0⟩ :=
  (placeholder_dims (fun _ => none) initialState ⟨100, 200⟩ 0).1 rfl

/-- C10: `Stop` does not shut the ingestion loop down — its body
`s.ctx.Done()` merely returns `context.Background()`'s done channel
and discards it, so nothing is cancelled and the `select` at the top
of `Start`'s loop never observes a shutdown. -/
theorem stop_never_observed :
    stopServer newUDPServer = newUDPServer ∧
    loopObservesShutdown (stopServer newUDPServer) = false :=
  ⟨rfl, rfl⟩

end MjpegServer
